import Mathlib

/-!
Shallow embedding of the personal-RAG ingestion pipeline
(`app/services/ingest_queue.py`, `app/services/namespace_router.py`,
`app/services/embedder.py`, `app/services/vectordb.py`,
`app/core/namespaces.py`, `app/models/ingest.py`,
`app/services/file_storage.py`) together with proofs about it.

External collaborators (the OpenRouter HTTP call, the OpenAI embedding
call, the Pinecone client, Docling parsing, the md5 hash) are modelled as
environment parameters supplying their outcomes; everything the repository
itself computes is translated directly from the Python source.
-/

set_option maxRecDepth 10000

namespace RAG

/-! ## Python-style string helpers

Small helpers mirroring the Python string operations used by the source
(`str.strip` of a given character set, `str.split(maxsplit=1)[0]`,
`str.splitlines()[0]`). -/

/-- The characters stripped by `first_token.strip("\x60&#390;\".,:;()[]\x7b\x7d")` in
`namespace_router._call_llm_for_classification` (backquote, single quote,
double quote, punctuation and brackets). -/
def stripSet : List Char := [Char.ofNat 96, Char.ofNat 39, Char.ofNat 34,
  Char.ofNat 46, Char.ofNat 44, Char.ofNat 58, Char.ofNat 59,
  Char.ofNat 40, Char.ofNat 41, Char.ofNat 91, Char.ofNat 93,
  Char.ofNat 123, Char.ofNat 125]

/-- Python `s.strip(chars)`: drop characters of `chars` from both ends. -/
def pyStripChars (chars : List Char) (s : String) : String :=
  String.mk (((s.toList.dropWhile (chars.contains ·)).reverse.dropWhile
    (chars.contains ·)).reverse)

/-- Python `s.strip()`: drop whitespace from both ends. -/
def pyTrim (s : String) : String :=
  String.mk (((s.toList.dropWhile Char.isWhitespace).reverse.dropWhile
    Char.isWhitespace).reverse)

/-- Python `s.lower()`. -/
def pyLower (s : String) : String :=
  String.mk (s.toList.map Char.toLower)

/-- Python `s[:n]`: the first `n` characters. -/
def pyTake (s : String) (n : Nat) : String :=
  String.mk (s.toList.take n)

/-- Python `sep.join(parts)`. -/
def joinSep (sep : String) : List String → String
  | [] => ""
  | [x] => x
  | x :: y :: xs => x ++ sep ++ joinSep sep (y :: xs)

/-- Python `line.split(maxsplit=1)[0] if line else ""`: the first
whitespace-delimited token of a line (empty when the line is blank). -/
def firstTokenOf (line : String) : String :=
  String.mk ((line.toList.dropWhile Char.isWhitespace).takeWhile
    (fun c => ¬ c.isWhitespace))

/-- Python `s.splitlines()[0] if s else ""`: the first line. -/
def firstLineOf (s : String) : String :=
  String.mk (s.toList.takeWhile (fun c => c ≠ Char.ofNat 10))

/-- `hasPre n h`: `n` is a leading run of `h` (helper for the Python
substring test `needle in hay`). -/
def hasPre : List Char → List Char → Bool
  | [], _ => true
  | _ :: _, [] => false
  | a :: as, b :: bs => a = b && hasPre as bs

/-- Python `needle in hay` on strings. -/
def containsSub (needle : List Char) : List Char → Bool
  | [] => hasPre needle []
  | b :: bs => hasPre needle (b :: bs) || containsSub needle bs

/-! ## `app/core/namespaces.py` -/

/-- The `Namespace(str, Enum)` of `app/core/namespaces.py` (lines 6-13):
its five declared members. -/
inductive Namespace
  | projects
  | experience
  | personal
  | education
  | about_rag
  deriving DecidableEq, Repr

/-- The `.value` of each `Namespace` member. -/
def Namespace.value : Namespace → String
  | .projects => "projects"
  | .experience => "experience"
  | .personal => "personal"
  | .education => "education"
  | .about_rag => "about_rag"

/-- Enum members in declaration order, keyed by their Python attribute
names.  `Namespace.X` in Python is an attribute lookup in this table, and
a missing name raises `AttributeError` — see `namespaceAttr`. -/
def namespaceMembers : List (String × Namespace) :=
  [("PROJECTS", .projects), ("EXPERIENCE", .experience),
   ("PERSONAL", .personal), ("EDUCATION", .education),
   ("ABOUT_RAG", .about_rag)]

/-- The list of members in declaration order (Python `for ns in Namespace`). -/
def namespaceList : List Namespace :=
  [.projects, .experience, .personal, .education, .about_rag]

/-- `is_valid_namespace` from `app/core/namespaces.py`. -/
def is_valid_namespace (v : String) : Bool :=
  (namespaceList.map Namespace.value).contains v

/-! ## Python exceptions -/

/-- The exception values that flow through the pipeline.  `retryError`
models tenacity's `RetryError` wrapper (which carries the last attempt);
it is never actually produced because both retry decorators use
`reraise=True`, but `process_job`'s handler is written to unwrap it. -/
inductive PyError
  | valueError (msg : String)
  | typeError (msg : String)
  | attributeError (msg : String)
  | rateLimitError (msg : String)
  | pineconeException (msg : String)
  | connectionError (msg : String)
  | retryError (last : PyError)
  deriving DecidableEq, Repr

/-- Python `type(e).__name__`. -/
def PyError.typeName : PyError → String
  | .valueError _ => "ValueError"
  | .typeError _ => "TypeError"
  | .attributeError _ => "AttributeError"
  | .rateLimitError _ => "RateLimitError"
  | .pineconeException _ => "PineconeException"
  | .connectionError _ => "ConnectionError"
  | .retryError _ => "RetryError"

/-- Python `str(e)` (for `RetryError` a non-empty rendering of the wrapped
future; the exact text is irrelevant because the wrapper is unwrapped). -/
def PyError.message : PyError → String
  | .valueError m => m
  | .typeError m => m
  | .attributeError m => m
  | .rateLimitError m => m
  | .pineconeException m => m
  | .connectionError m => m
  | .retryError _ => "retry wrapper"

instance {ε α : Type} [DecidableEq ε] [DecidableEq α] :
    DecidableEq (Except ε α) := fun x y =>
  match x, y with
  | .ok a, .ok b =>
    if h : a = b then isTrue (by rw [h])
    else isFalse (fun hc => h (Except.ok.inj hc))
  | .error e, .error f =>
    if h : e = f then isTrue (by rw [h])
    else isFalse (fun hc => h (Except.error.inj hc))
  | .ok _, .error _ => isFalse (fun hc => Except.noConfusion hc)
  | .error _, .ok _ => isFalse (fun hc => Except.noConfusion hc)

/-- Python attribute access `Namespace.<name>`: returns the member, or
raises `AttributeError(name)` when no such member is declared.  This is
how `Namespace.PROFESSIONAL_LIFE` in `namespace_router.py` behaves at
runtime: there is no member of that name in `app/core/namespaces.py`. -/
def namespaceAttr (name : String) : Except PyError Namespace :=
  match namespaceMembers.lookup name with
  | some ns => .ok ns
  | none => .error (.attributeError name)

/-! ## `app/services/parser.py` — the `ParsedChunk` data model

Parsing itself (Docling) is an external collaborator; the pipeline only
consumes the resulting chunks, so only the chunk record is embedded.
`metadata` is a dict; the fields below are the keys the pipeline reads
(`context_summary` is `Option` to model `dict.get` on a possibly absent
key, the others carry the defaults used at their read sites). -/

structure ParsedChunk where
  text : String
  context_summary : Option String := none
  document_title : String := ""
  heading : String := ""
  page_number : Nat := 1
  chunk_index : Nat := 1
  deriving DecidableEq, Repr

/-! ## `app/services/namespace_router.py` -/

/-- Outcome of one OpenRouter chat-completion HTTP round trip (an external
collaborator): client-initialization failure (blank API key, the
`ValueError` in `_get_client`), timeout, HTTP status error, transport
error, unparseable JSON payload, or a successful response whose extracted
message content is `content` (the raw string that
`_extract_message_content` would return before its `strip().lower()`). -/
inductive LLMOutcome
  | initFailure
  | timeout
  | httpStatus (code : Nat)
  | transport
  | badPayload
  | response (content : String)
  deriving DecidableEq, Repr

/-- `_normalize_model` from `namespace_router.py`. -/
def normalize_model (model : String) : String :=
  let normalized := pyTrim model
  if normalized = "" then ""
  else if containsSub ":free".toList normalized.toList then normalized
  else normalized ++ ":free"

/-- `_extract_message_content`: the payload traversal is external JSON
handling; its result is `str(content).strip().lower()` of the message
content supplied by the environment. -/
def extract_message_content (content : String) : String :=
  pyLower (pyTrim content)

/-- `_build_classification_prompt` from `namespace_router.py`.  The fixed
prose is embedded faithfully enough to preserve the only property the
pipeline reads off it (non-blankness); quotes are omitted from the text. -/
def build_classification_prompt (text : String) (headings : List String) : String :=
  let headingSection :=
    if headings ≠ [] then
      "\n\nDocument headings:\n- " ++ joinSep "\n- " headings
    else ""
  let namespaceListStr := joinSep ", " (namespaceList.map Namespace.value)
  "You are a classifier for a personal portfolio RAG system. " ++
  "Your task is to determine which namespace best fits the given content.\n\n" ++
  "Available namespaces and their descriptions:\n\n" ++
  "Analyze the following content and respond with ONLY the namespace name (one of: " ++
  namespaceListStr ++ "). No explanation, just the single word.\n\nContent:" ++
  headingSection ++ "\n\n" ++ pyTake text 2000

/-- `_call_llm_for_classification` (lines 107-194).  Returns the Python
result (`.ok` a namespace, or `.error` the exception the call raises) and
the final value of the module global `_last_call_used_fallback`, which is
reset to `False` on entry.  Every fallback branch sets the flag and then
executes `return Namespace.PROFESSIONAL_LIFE` — an attribute lookup that
does not exist in the enum (see `namespaceAttr`). -/
def call_llm_for_classification (model : String) (outcome : LLMOutcome)
    (text : String) (headings : List String) :
    Except PyError Namespace × Bool :=
  -- the common fallback branch: set the flag, then `return Namespace.PROFESSIONAL_LIFE`
  let fallback : Except PyError Namespace × Bool :=
    (namespaceAttr "PROFESSIONAL_LIFE", true)
  if pyTrim text = "" ∧ headings = [] then fallback
  else
    let model' := normalize_model model
    let prompt := build_classification_prompt text headings
    if model' = "" ∨ pyTrim prompt = "" then fallback
    else
      match outcome with
      | .initFailure => fallback
      | .timeout => fallback
      | .httpStatus _ => fallback
      | .transport => fallback
      | .badPayload => fallback
      | .response content =>
        let result_raw := extract_message_content content
        if result_raw = "" then fallback
        else
          let first_line := firstLineOf result_raw
          let first_token := firstTokenOf first_line
          let result := pyStripChars stripSet first_token
          match (namespaceList.map (fun ns => (ns.value, ns))).lookup result with
          | some ns => (.ok ns, false)
          | none => fallback

/-- `_get_context_text`: `chunk.metadata.get("context_summary") or chunk.text`
(note the `or`: an *empty* summary also falls back to the raw text). -/
def get_context_text (c : ParsedChunk) : String :=
  match c.context_summary with
  | some s => if s = "" then c.text else s
  | none => c.text

/-- `classify_document` (lines 55-77).  `flagIn` is the value of the
module global `_last_call_used_fallback` before the call (the early
`return Namespace.PROFESSIONAL_LIFE` for an empty chunk list does not
touch the flag). -/
def classify_document (model : String) (outcome : LLMOutcome)
    (chunks : List ParsedChunk) (flagIn : Bool) :
    Except PyError Namespace × Bool :=
  match chunks with
  | [] => (namespaceAttr "PROFESSIONAL_LIFE", flagIn)
  | first :: _ =>
    let headings := chunks.foldl
      (fun acc c =>
        if c.heading ≠ "" ∧ ¬ acc.contains c.heading then acc ++ [c.heading]
        else acc) []
    call_llm_for_classification model outcome (get_context_text first) headings

/-- `classify_chunk` (lines 80-92). -/
def classify_chunk (model : String) (outcome : LLMOutcome) (c : ParsedChunk) :
    Except PyError Namespace × Bool :=
  let headings := if c.heading ≠ "" then [c.heading] else []
  call_llm_for_classification model outcome (get_context_text c) headings

/-- `classify_chunks_individually` (lines 95-104): a list comprehension
over `classify_chunk`, evaluated left to right; the first exception
aborts the comprehension.  `outcomes i` is the LLM outcome of the call
for chunk `i`; the returned `Bool` is the final flag value. -/
def classify_chunks_individually (model : String) (outcomes : Nat → LLMOutcome) :
    List ParsedChunk → Nat → Bool → Except PyError (List Namespace) × Bool
  | [], _, flag => (.ok [], flag)
  | c :: cs, i, _flag =>
    match classify_chunk model (outcomes i) c with
    | (.error e, flag') => (.error e, flag')
    | (.ok ns, flag') =>
      match classify_chunks_individually model outcomes cs (i + 1) flag' with
      | (.ok rest, flag'') => (.ok (ns :: rest), flag'')
      | (.error e, flag'') => (.error e, flag'')

/-! ## Batching and tenacity retry

Both `embedder.py` and `vectordb.py` slice their input with
`for i in range(0, len(l), B): batch = l[i:i+B]` and wrap the whole
operation in a tenacity `@retry(..., stop=stop_after_attempt(k),
wait=wait_exponential_jitter(...), reraise=True)` decorator. -/

/-- `batchedGo size k l`: emit `k` successive slices `l.take size` of the
remaining list (`l[i:i+size]` for the `k` values `i` produced by the
Python `range`). -/
def batchedGo (size : Nat) : Nat → List α → List (List α)
  | 0, _ => []
  | k + 1, l => l.take size :: batchedGo size k (l.drop size)

/-- The Python batch slicing `l[i:i+size]` for `i in range(0, len(l), size)`:
the number of slices is `⌈len(l)/size⌉` (the `num_batches` formula the
embedder computes explicitly).  The guard on `size = 0` is unreachable
for the source constants 20 and 100; Python `range` would reject a zero
step. -/
def batched (size : Nat) (l : List α) : List (List α) :=
  if size = 0 then []
  else batchedGo size ((l.length + size - 1) / size) l

/-- tenacity `wait_exponential_jitter(initial, max, exp_base=2, jitter)`:
the sleep computed after attempt number `n` has failed, where `jit n` is
the value drawn from `random.uniform(0, jitter)`. -/
def expJitterWait (initial maxWait : ℚ) (jit : Nat → ℚ) (n : Nat) : ℚ :=
  max 0 (min (initial * 2 ^ (n - 1) + jit n) maxWait)

/-- tenacity's retry driver with `reraise=True`: `call n` is attempt
number `n` (starting at 1); a retryable failure with budget left sleeps
`wait n` and retries, a non-retryable failure or an exhausted budget
re-raises the underlying exception itself (never a `RetryError`).
Returns the result, the list of sleeps performed, and the number of the
final attempt. -/
def retryLoop (retryable : PyError → Bool) (wait : Nat → ℚ)
    (call : Nat → Except PyError α) :
    Nat → Nat → Except PyError α × List ℚ × Nat
  | 0, n => (call n, [], n)
  | budget + 1, n =>
    match call n with
    | .ok a => (.ok a, [], n)
    | .error e =>
      if retryable e then
        match retryLoop retryable wait call budget (n + 1) with
        | (r, ws, m) => (r, wait n :: ws, m)
      else (.error e, [], n)

/-! ## `app/services/embedder.py` -/

/-- `EMBEDDING_BATCH_SIZE = 20`. -/
def EMBEDDING_BATCH_SIZE : Nat := 20

/-- Embedding vectors are opaque numeric arrays produced by the external
OpenAI call; their numeric content never matters to the pipeline. -/
abbrev Emb := List Int

/-- retry predicate of `embed_texts`: `retry_if_exception_type(RateLimitError)`. -/
def isRateLimit : PyError → Bool
  | .rateLimitError _ => true
  | _ => false

/-- `embed_texts` (lines 39-66): empty input short-circuits to `[]`;
any blank text raises `ValueError`; otherwise the OpenAI call runs under
`@retry(RateLimitError, stop_after_attempt(10),
wait_exponential_jitter(initial=5, max=120, jitter=5), reraise=True)`.
`jit` supplies the jitter draws. -/
def embed_texts (call : List String → Nat → Except PyError (List Emb))
    (jit : Nat → ℚ) (texts : List String) : Except PyError (List Emb) :=
  if texts = [] then .ok []
  else if texts.any (fun t => pyTrim t = "") then
    .error (.valueError "All texts must be non-empty strings for embedding.")
  else
    (retryLoop isRateLimit (expJitterWait 5 120 jit) (fun n => call texts n) 9 1).1

/-- The per-batch loop of `embed_texts_batched`, extending `all_embeddings`
batch by batch (the inter-batch `time.sleep(INTER_BATCH_DELAY)` has no
effect on the computed value and is not modelled). -/
def embedBatchesLoop (call : List String → Nat → Except PyError (List Emb))
    (jit : Nat → ℚ) : List (List String) → Except PyError (List Emb)
  | [] => .ok []
  | b :: bs =>
    match embed_texts call jit b with
    | .error e => .error e
    | .ok embs =>
      match embedBatchesLoop call jit bs with
      | .error e => .error e
      | .ok rest => .ok (embs ++ rest)

/-- `embed_texts_batched` (lines 69-97). -/
def embed_texts_batched (call : List String → Nat → Except PyError (List Emb))
    (jit : Nat → ℚ) (texts : List String) : Except PyError (List Emb) :=
  if texts = [] then .ok []
  else embedBatchesLoop call jit (batched EMBEDDING_BATCH_SIZE texts)

/-! ## `app/services/vectordb.py` -/

/-- `UPSERT_BATCH_SIZE = 100`. -/
def UPSERT_BATCH_SIZE : Nat := 100

/-- The vector record built by `process_job` step 4 and consumed by
`upsert_vectors` (Python dicts with keys `id`, `values`, `metadata`). -/
structure VectorRecord where
  id : String
  values : Emb
  text : String
  contextualized_text : String
  doc_title : String
  heading : String
  source_url : String
  page_number : Nat
  content_type : String
  chunk_index : Nat
  deriving DecidableEq, Repr

/-- Environment of one `upsert_vectors` call: `getIndex a` is the outcome
of `get_index(index_name)` on attempt `a` (`none` = a client was built),
`write a b` the outcome of `index.upsert` for batch index `b` on attempt
`a`, and `jit` the jitter draws of the retry wait. -/
structure UpsertEnv where
  getIndex : Nat → Option PyError
  write : Nat → Nat → Option PyError
  jit : Nat → ℚ

/-- retry predicate of `upsert_vectors`:
`retry_if_exception_type((PineconeException, ConnectionError))`. -/
def isPineconeRetryable : PyError → Bool
  | .pineconeException _ => true
  | .connectionError _ => true
  | _ => false

/-- The sequential batch loop in the body of `upsert_vectors`: write each
batch in order, accumulating `total_upserted`; the first failing batch
aborts the remaining ones. -/
def upsertBatchesLoop (env : UpsertEnv) (attempt : Nat) :
    List (List VectorRecord) → Nat → Nat → Except PyError Nat
  | [], _, total => .ok total
  | b :: bs, i, total =>
    match env.write attempt i with
    | some e => .error e
    | none => upsertBatchesLoop env attempt bs (i + 1) (total + b.length)

/-- One attempt of the decorated body of `upsert_vectors` (lines 33-77):
empty input returns 0 before any client is built; otherwise build the
index client and run the batch loop. -/
def upsertAttempt (env : UpsertEnv) (vectors : List VectorRecord)
    (attempt : Nat) : Except PyError Nat :=
  if vectors = [] then .ok 0
  else
    match env.getIndex attempt with
    | some e => .error e
    | none => upsertBatchesLoop env attempt (batched UPSERT_BATCH_SIZE vectors) 0 0

/-- `upsert_vectors` (lines 27-77): the body under
`@retry((PineconeException, ConnectionError), stop_after_attempt(5),
wait_exponential_jitter(initial=1, max=30), reraise=True)`.  Also
returns the sleeps performed and the final attempt number. -/
def upsert_vectors (env : UpsertEnv) (_index _namespace : String)
    (vectors : List VectorRecord) : Except PyError Nat × List ℚ × Nat :=
  retryLoop isPineconeRetryable (expJitterWait 1 30 env.jit)
    (upsertAttempt env vectors) 4 1

/-! ## `app/models/ingest.py` and `app/services/ingest_queue.py` -/

/-- `RoutingMode(str, Enum)` from `app/models/ingest.py`. -/
inductive RoutingMode
  | auto
  | manual
  | per_chunk
  deriving DecidableEq, Repr

/-- `.value` of each `RoutingMode` member. -/
def RoutingMode.value : RoutingMode → String
  | .auto => "auto"
  | .manual => "manual"
  | .per_chunk => "per_chunk"

/-- Python `RoutingMode(value)`: member lookup by value, raising
`ValueError` on an unknown value. -/
def RoutingMode.ofValue (s : String) : Except PyError RoutingMode :=
  if s = "auto" then .ok .auto
  else if s = "manual" then .ok .manual
  else if s = "per_chunk" then .ok .per_chunk
  else .error (.valueError (s ++ " is not a valid RoutingMode"))

/-- `ALLOWED_EXTENSIONS` from `app/services/parser.py`. -/
def ALLOWED_EXTENSIONS : List String :=
  [".pdf", ".csv", ".json", ".docx", ".txt", ".md"]

/-- `CONTENT_TYPES` from `app/services/parser.py`. -/
def CONTENT_TYPES : List (String × String) :=
  [(".pdf", "application/pdf"),
   (".docx", "application/vnd.openxmlformats-officedocument.wordprocessingml.document"),
   (".txt", "text/plain"),
   (".md", "text/markdown"),
   (".json", "application/json"),
   (".csv", "text/csv")]

/-- The extension computation of `validate_ingest_request`:
`filename.rsplit(".", 1)[-1].lower() if "." in filename else ""`. -/
def extOf (filename : String) : String :=
  if filename.toList.contains (Char.ofNat 46) then
    pyLower (String.mk
      ((filename.toList.reverse.takeWhile (fun c => c ≠ Char.ofNat 46)).reverse))
  else ""

/-- `get_content_type` from `parser.py`: the `CONTENT_TYPES` entry for the
file extension, defaulting to `text/plain`. -/
def get_content_type (path : String) : String :=
  (CONTENT_TYPES.lookup ("." ++ extOf path)).getD "text/plain"

/-- `validate_ingest_request` (`ingest_queue.py` lines 34-59).  Raised
messages are embedded with the quotation marks omitted. -/
def validate_ingest_request (filename : Option String) (nsp : Option String)
    (index : String) (routing_mode : RoutingMode) : Except PyError Unit :=
  let fn := filename.getD ""
  if fn = "" ∨ pyTrim fn = "" then .error (.valueError "Filename is required.")
  else
    let ext := extOf fn
    if ¬ ALLOWED_EXTENSIONS.contains ("." ++ ext) then
      .error (.valueError ("Unsupported file type ." ++ ext ++ "."))
    else
      -- `normalized_namespace = namespace.strip() if namespace else ""`
      let normalized := pyTrim (nsp.getD "")
      if routing_mode = RoutingMode.manual then
        if normalized = "" then
          .error (.valueError "Namespace is required when routing_mode is manual.")
        else if ¬ is_valid_namespace normalized then
          .error (.valueError ("Invalid namespace " ++ normalized ++
            ". Must be one of: " ++
            joinSep ", " (namespaceList.map Namespace.value)))
        else if pyTrim index = "" then .error (.valueError "Index is required.")
        else .ok ()
      else if normalized ≠ "" then
        .error (.valueError "Namespace is only allowed when routing_mode is manual.")
      else if pyTrim index = "" then .error (.valueError "Index is required.")
      else .ok ()

/-- `IngestJobRecord` from `app/models/ingest.py`, flattened together with
the metadata keys the pipeline reads.  `status` is declared in the source
as `Literal["queued", "processing", "completed", "failed"]`, but pydantic
does not validate plain attribute assignment, so the embedded field is an
arbitrary string.  `routing_fallback_used` is *not* a declared field of
the model; the `Option Bool` records whether the dynamic attribute was
ever successfully attached (it never is — assignment raises). -/
structure IngestJobRecord where
  job_id : String
  filename : String
  content_type : Option String := none
  status : String := "queued"
  metaIndex : String := ""
  metaNamespace : String := ""
  metaRoutingMode : String := "auto"
  metaSourceUrl : String := ""
  file_path : Option String := none
  error : Option String := none
  chunks_processed : Option Nat := none
  routing_fallback_used : Option Bool := none
  deriving DecidableEq, Repr

/-- The values of the declared `status` Literal of `IngestJobRecord`. -/
def declaredStatuses : List String := ["queued", "processing", "completed", "failed"]

/-- `add_file_to_queue` (lines 84-112): builds the queued record
(`record_metadata` always holds `index` and `routing_mode`; `namespace`
only when non-empty, which is what reading it back with default `""`
observes). -/
def add_file_to_queue (job_id filename : String) (content_type : Option String)
    (file_path : String) (nsp : Option String) (index : String)
    (routing_mode : RoutingMode) (source_url : Option String) : IngestJobRecord :=
  { job_id := job_id, filename := filename, content_type := content_type,
    status := "queued",
    metaIndex := index, metaNamespace := (nsp.getD ""),
    metaRoutingMode := routing_mode.value,
    metaSourceUrl := (source_url.getD ""),
    file_path := some file_path }

/-- One entry of `vectors_by_namespace`: append `v` to the group of key
`k`, creating the group at the end on first occurrence (Python dict
insertion order). -/
def insertGrouped (k : String) (v : VectorRecord) :
    List (String × List VectorRecord) → List (String × List VectorRecord)
  | [] => [(k, [v])]
  | (k', vs) :: rest =>
    if k' = k then (k', vs ++ [v]) :: rest
    else (k', vs) :: insertGrouped k v rest

/-- The grouping loop of `process_job` step 4. -/
def groupByNamespace (l : List (String × VectorRecord)) :
    List (String × List VectorRecord) :=
  l.foldl (fun acc kv => insertGrouped kv.1 kv.2 acc) []

/-- The vector dict built by `process_job` step 4 for one
(chunk, embedding) pair, with `md5` the external `hashlib.md5 hexdigest`. -/
def mkVector (md5 : String → String) (content_type source_url : String)
    (c : ParsedChunk) (e : Emb) : VectorRecord :=
  { id := md5 c.text, values := e, text := c.text,
    contextualized_text := (c.context_summary.getD ""),
    doc_title := c.document_title, heading := c.heading,
    source_url := source_url, page_number := c.page_number,
    content_type := content_type, chunk_index := c.chunk_index }

/-- The `zip(chunks, embeddings, chunk_namespaces)` loop of step 4
(Python `zip` truncates at the shortest input). -/
def buildVectors (md5 : String → String) (content_type source_url : String) :
    List ParsedChunk → List Emb → List String → List (String × VectorRecord)
  | c :: cs, e :: es, n :: ns =>
    (n, mkVector md5 content_type source_url c e) ::
      buildVectors md5 content_type source_url cs es ns
  | _, _, _ => []

/-- Environment of one `process_job` run: the outcomes of all external
collaborators it may consult. -/
structure JobEnv where
  parse : Except PyError (List ParsedChunk)
  model : String
  routeOutcome : Nat → LLMOutcome
  embedCall : List String → Nat → Except PyError (List Emb)
  embedJit : Nat → ℚ
  upsertEnv : String → UpsertEnv
  md5Hex : String → String

/-- The observable outcome of one `process_job` run: the final record,
the successive values written to `record.status` (each visible to
status-query callers while the run progresses), whether
`cleanup_job_files` ran, the total count reported by the successful
upsert calls (0 when the run failed), and the final value of the router
module's fallback flag. -/
structure JobResult where
  record : IngestJobRecord
  trace : List String
  cleanupRan : Bool
  written : Nat
  flagOut : Bool
  deriving Repr

/-- The `except Exception` handler of `process_job` (lines 255-269):
unwrap a tenacity `RetryError` to its last attempt, record
`"<ErrorKind>: <message>"`, set status `failed`.  The staged file is left
in place (`cleanupRan = false`). -/
def unwrapRetry : PyError → PyError
  | .retryError inner => inner
  | e => e

/-- The recorded failure string `f"{type(actual_error).__name__}: {actual_error}"`. -/
def errString (e : PyError) : String :=
  e.typeName ++ ": " ++ e.message

/-- See `unwrapRetry` just above: part of the same handler. -/
def failResult (rec : IngestJobRecord) (trace : List String) (e : PyError)
    (flag : Bool) : JobResult :=
  let msg := errString (unwrapRetry e)
  let failedRec := { rec with status := "failed", error := some msg }
  { record := failedRec, trace := trace ++ ["failed"], cleanupRan := false,
    written := 0, flagOut := flag }

/-- The loop of `process_job` step 5: upsert each namespace group in
insertion order, aborting at the first failure.  The `Nat` accumulates
the counts the successful `upsert_vectors` calls return (ignored by the
source, kept as the observable number of vector records written). -/
def upsertGroups (env : JobEnv) (index : String) :
    List (String × List VectorRecord) → Nat → Except PyError Nat
  | [], total => .ok total
  | (ns, vecs) :: rest, total =>
    match (upsert_vectors (env.upsertEnv ns) index ns vecs).1 with
    | .error e => .error e
    | .ok n => upsertGroups env index rest (total + n)

/-- `process_job` steps 3-5 (lines 194-253), shared by all three routing
branches: embed the context summaries, check the count, build and group
the vectors, upsert group by group, then complete and clean up.  `rfu` is
the local `routing_fallback_used`; a true value makes the source assign
`record.routing_fallback_used = True`, which pydantic rejects because the
model declares no such field — a `ValueError` that fails the job. -/
def pipelineAfterRouting (env : JobEnv) (rec : IngestJobRecord)
    (chunks : List ParsedChunk) (content_type : String)
    (chunk_namespaces : List String) (rfu : Bool) (flag : Bool) : JobResult :=
  if rfu then
    failResult rec ["chunking", "routing"]
      (.valueError "IngestJobRecord object has no field routing_fallback_used") flag
  else
    let contextualized_texts := chunks.map (fun c => c.context_summary.getD c.text)
    match embed_texts_batched env.embedCall env.embedJit contextualized_texts with
    | .error e => failResult rec ["chunking", "routing", "embedding"] e flag
    | .ok embeddings =>
      if embeddings.length ≠ chunks.length then
        failResult rec ["chunking", "routing", "embedding"]
          (.valueError ("Embedding count mismatch: expected " ++
            toString chunks.length ++ " vectors, got " ++
            toString embeddings.length ++ ".")) flag
      else
        let pairs := buildVectors env.md5Hex content_type rec.metaSourceUrl
          chunks embeddings chunk_namespaces
        let groups := groupByNamespace pairs
        match upsertGroups env rec.metaIndex groups 0 with
        | .error e =>
          failResult rec ["chunking", "routing", "embedding", "upserting"] e flag
        | .ok written =>
          let doneRec :=
            { rec with chunks_processed := some chunks.length, status := "completed" }
          { record := doneRec,
            trace := ["chunking", "routing", "embedding", "upserting", "completed"],
            cleanupRan := true, written := written, flagOut := flag }

/-- `process_job` (lines 128-269) for a record found in the store (an
absent id is an immediate no-op return in the source).  `flagIn` is the
router module's `_last_call_used_fallback` global before the run.
`cleanup_job_files` is the best-effort external cleanup collaborator,
invoked only on the success path. -/
def process_job (env : JobEnv) (rec : IngestJobRecord) (flagIn : Bool) : JobResult :=
  if (rec.file_path.getD "") = "" then
    failResult rec [] (.valueError "No file path available for processing.") flagIn
  else
    match RoutingMode.ofValue rec.metaRoutingMode with
    | .error e => failResult rec [] e flagIn
    | .ok routing_mode =>
      if rec.metaIndex = "" then
        failResult rec [] (.valueError "No index name specified.") flagIn
      else
        match env.parse with
        | .error e => failResult rec ["chunking"] e flagIn
        | .ok chunks =>
          let content_type := get_content_type (rec.file_path.getD "")
          match routing_mode with
          | .manual =>
            pipelineAfterRouting env rec chunks content_type
              (List.replicate chunks.length rec.metaNamespace) false flagIn
          | .per_chunk =>
            match classify_chunks_individually env.model env.routeOutcome chunks 0 flagIn with
            | (.error e, flag') => failResult rec ["chunking", "routing"] e flag'
            | (.ok nss, flag') =>
              pipelineAfterRouting env rec chunks content_type
                (nss.map Namespace.value) flag' flag'
          | .auto =>
            match classify_document env.model (env.routeOutcome 0) chunks flagIn with
            | (.error e, flag') => failResult rec ["chunking", "routing"] e flag'
            | (.ok ns, flag') =>
              pipelineAfterRouting env rec chunks content_type
                (List.replicate chunks.length ns.value) flag' flag'

/-! ## Concrete environments used by the theorems -/

/-- An upsert environment in which every external call succeeds. -/
def okUpsert : UpsertEnv := ⟨fun _ => none, fun _ _ => none, fun _ => 0⟩

/-- An upsert environment in which every `index.upsert` raises a
`PineconeException`. -/
def downUpsert : UpsertEnv :=
  ⟨fun _ => none, fun _ _ => some (.pineconeException "connection reset"), fun _ => 0⟩

/-- A sample vector record. -/
def vec1 : VectorRecord :=
  ⟨"id1", [1], "t", "ctx", "doc", "h", "", 1, "text/plain", 1⟩

/-- An embedding service that answers every call with one vector per
input text, in order (the vector records the text length). -/
def pointwiseEmbed : List String → Nat → Except PyError (List Emb) :=
  fun b _ => .ok (b.map (fun t => [(t.length : Int)]))

/-- A well-formed queued record for a manual-mode job. -/
def recManual : IngestJobRecord :=
  add_file_to_queue "j1" "test.txt" (some "text/plain") "/tmp/f.txt"
    (some "projects") "idx" .manual none

/-- An environment in which every stage of a one-chunk manual job
succeeds. -/
def envManualOk : JobEnv :=
  { parse := .ok [{ text := "hello", context_summary := some "ctx hello" }],
    model := "m", routeOutcome := fun _ => .response "projects",
    embedCall := pointwiseEmbed, embedJit := fun _ => 0,
    upsertEnv := fun _ => okUpsert, md5Hex := fun s => s ++ "#md5" }

/-- A well-formed queued record for a per-chunk-mode job. -/
def recPerChunk : IngestJobRecord :=
  add_file_to_queue "j2" "test.txt" none "/tmp/f.txt" none "idx" .per_chunk none

/-- The environment of the C2 scenario: three parsed chunks; the
classifier answers a recognized token for chunks 1 and 3 and an
unrecognized token for chunk 2; everything else succeeds. -/
def envPerChunkBadToken : JobEnv :=
  { envManualOk with
    parse := .ok [{ text := "a" }, { text := "b" }, { text := "c" }],
    routeOutcome := fun i =>
      if i = 1 then .response "zzz" else .response "projects" }

/-! ## C1 -/

/-- C1: the spec claims every routing operation
(`classify_document`/`classify_chunk`/`classify_chunks_individually`)
never raises and degrades every internal failure to the fallback
namespace with the fallback flag set.  The code contradicts this: every
fallback branch executes `return Namespace.PROFESSIONAL_LIFE`, an
attribute lookup that does not exist in the `Namespace` enum of
`app/core/namespaces.py`, so the branch raises `AttributeError` instead
of returning.  Shown here on an unrecognized token, a request timeout
and an empty-input call; in each case the flag is set but the operation
still raises. -/
theorem C1_routing_fallback_raises :
    (classify_document "m" (.response "gibberish") [{ text := "hello" }] false
      = (.error (.attributeError "PROFESSIONAL_LIFE"), true))
    ∧ (classify_chunk "m" .timeout { text := "hello" }
      = (.error (.attributeError "PROFESSIONAL_LIFE"), true))
    ∧ (classify_chunks_individually "m" (fun _ => .response "zzz")
        [{ text := "hello" }] 0 false
      = (.error (.attributeError "PROFESSIONAL_LIFE"), true))
    ∧ (call_llm_for_classification "m" (.response "x") "" []
      = (.error (.attributeError "PROFESSIONAL_LIFE"), true)) :=
  by decide

/-! ## C2 -/

/-- C2: the spec claims a 3-chunk `per_chunk` job whose classifier
returns an unrecognized token for chunk 2 ends the routing stage with
the job record's fallback-used flag true.  In the code the fallback
branch for chunk 2 raises `AttributeError` (see C1), the job fails
during routing, and no fallback flag is ever attached to the record
(the model declares no `routing_fallback_used` field; moreover each
classification call resets the router's flag, so chunk 3 would have
cleared it anyway). -/
theorem C2_per_chunk_unrecognized_token :
    (process_job envPerChunkBadToken recPerChunk false).record.status = "failed"
    ∧ (process_job envPerChunkBadToken recPerChunk false).record.error
      = some "AttributeError: PROFESSIONAL_LIFE"
    ∧ (process_job envPerChunkBadToken recPerChunk false).record.routing_fallback_used
      = none
    ∧ (process_job envPerChunkBadToken recPerChunk false).trace
      = ["chunking", "routing", "failed"] :=
  by decide

/-! ## C10 -/

/-- C10: while a job is being processed, the record's `status` field
takes the stage values `chunking`, `routing`, `embedding`, `upserting`
— none of which belongs to the `Literal` enumeration declared on
`IngestJobRecord` (`queued`/`processing`/`completed`/`failed`); the
pipeline's `_update_status` writes them unvalidated, so membership in
the declared enumeration is not an invariant. -/
theorem C10_stage_statuses_outside_declared_enum :
    (process_job envManualOk recManual false).trace
      = ["chunking", "routing", "embedding", "upserting", "completed"]
    ∧ ("chunking" ∉ declaredStatuses ∧ "routing" ∉ declaredStatuses
       ∧ "embedding" ∉ declaredStatuses ∧ "upserting" ∉ declaredStatuses) :=
  by decide

/-! ## Lemmas about batching and the retry driver -/

theorem batchedGo_flatten {α : Type} (size : Nat) :
    ∀ (k : Nat) (l : List α), l.length ≤ k * size → (batchedGo size k l).flatten = l := by
  intro k
  induction k with
  | zero =>
    intro l hl
    rw [Nat.zero_mul] at hl
    have : l = [] := List.eq_nil_of_length_eq_zero (Nat.le_zero.mp hl)
    simp [this, batchedGo]
  | succ k ih =>
    intro l hl
    simp only [batchedGo, List.flatten_cons]
    rw [ih (l.drop size)]
    · exact List.take_append_drop size l
    · simp only [List.length_drop]
      calc l.length - size ≤ (k + 1) * size - size := Nat.sub_le_sub_right hl size
        _ = k * size := by rw [Nat.succ_mul]; omega

theorem ceil_mul_ge (n size : Nat) (h : size ≠ 0) :
    n ≤ ((n + size - 1) / size) * size := by
  have hpos : 0 < size := Nat.pos_of_ne_zero h
  have hdm := Nat.div_add_mod (n + size - 1) size
  have hlt : (n + size - 1) % size < size := Nat.mod_lt _ hpos
  have hcomm : ((n + size - 1) / size) * size = size * ((n + size - 1) / size) :=
    Nat.mul_comm _ _
  rw [hcomm]
  omega

theorem batched_flatten {α : Type} (size : Nat) (h : size ≠ 0) (l : List α) :
    (batched size l).flatten = l := by
  unfold batched
  rw [if_neg h]
  exact batchedGo_flatten size _ l (ceil_mul_ge l.length size h)

theorem batchedGo_length_le {α : Type} (size : Nat) :
    ∀ (k : Nat) (l : List α), ∀ b ∈ batchedGo size k l, b.length ≤ size := by
  intro k
  induction k with
  | zero => intro l b hb; simp [batchedGo] at hb
  | succ k ih =>
    intro l b hb
    simp only [batchedGo, List.mem_cons] at hb
    rcases hb with hb | hb
    · rw [hb]; exact List.length_take_le size l
    · exact ih _ b hb

theorem batched_length_le {α : Type} (size : Nat) (l : List α) :
    ∀ b ∈ batched size l, b.length ≤ size := by
  intro b hb
  unfold batched at hb
  split at hb
  · simp at hb
  · exact batchedGo_length_le size _ l b hb

theorem retryLoop_ok {α : Type} (r : PyError → Bool) (w : Nat → ℚ)
    (c : Nat → Except PyError α) (a : α) :
    ∀ (k n : Nat), (retryLoop r w c k n).1 = .ok a → ∃ m, c m = .ok a := by
  intro k
  induction k with
  | zero =>
    intro n h
    exact ⟨n, by simpa [retryLoop] using h⟩
  | succ k ih =>
    intro n h
    rcases hc : c n with e | v
    · simp only [retryLoop, hc] at h
      by_cases hr : r e = true
      · rw [if_pos hr] at h
        exact ih (n + 1) h
      · rw [if_neg hr] at h
        simp at h
    · simp only [retryLoop, hc] at h
      exact ⟨n, by rw [hc]; simpa using h⟩

theorem retryLoop_final_ge {α : Type} (r : PyError → Bool) (w : Nat → ℚ)
    (c : Nat → Except PyError α) :
    ∀ (k n : Nat), n ≤ (retryLoop r w c k n).2.2 := by
  intro k
  induction k with
  | zero => intro n; simp [retryLoop]
  | succ k ih =>
    intro n
    rcases hc : c n with e | v
    · simp only [retryLoop, hc]
      by_cases hr : r e = true
      · rw [if_pos hr]
        exact Nat.le_of_succ_le (ih (n + 1))
      · rw [if_neg hr]
    · simp [retryLoop, hc]

theorem retryLoop_final_le {α : Type} (r : PyError → Bool) (w : Nat → ℚ)
    (c : Nat → Except PyError α) :
    ∀ (k n : Nat), (retryLoop r w c k n).2.2 ≤ n + k := by
  intro k
  induction k with
  | zero => intro n; simp [retryLoop]
  | succ k ih =>
    intro n
    rcases hc : c n with e | v
    · simp only [retryLoop, hc]
      by_cases hr : r e = true
      · rw [if_pos hr]
        dsimp only
        exact (ih (n + 1)).trans (Nat.le_of_eq (by omega))
      · rw [if_neg hr]
        dsimp only
        exact Nat.le_add_right n (k + 1)
    · simp only [retryLoop, hc]
      exact Nat.le_add_right n (k + 1)

theorem retryLoop_error_exhausts {α : Type} (r : PyError → Bool) (w : Nat → ℚ)
    (c : Nat → Except PyError α) (e : PyError) :
    ∀ (k n : Nat), (retryLoop r w c k n).1 = .error e →
      r e = false ∨ (retryLoop r w c k n).2.2 = n + k := by
  intro k
  induction k with
  | zero =>
    intro n _
    right
    simp [retryLoop]
  | succ k ih =>
    intro n h
    rcases hc : c n with e' | v
    · simp only [retryLoop, hc] at h ⊢
      by_cases hr : r e' = true
      · rw [if_pos hr] at h ⊢
        rcases ih (n + 1) h with hl | hr'
        · exact Or.inl hl
        · right
          dsimp only
          rw [hr']
          omega
      · rw [if_neg hr] at h ⊢
        have he : e' = e := by simpa using h
        subst he
        left
        simpa using hr
    · simp only [retryLoop, hc] at h
      simp at h

theorem retryLoop_waits {α : Type} (r : PyError → Bool) (w : Nat → ℚ)
    (c : Nat → Except PyError α) :
    ∀ (k n : Nat), (retryLoop r w c k n).2.1
      = (List.range ((retryLoop r w c k n).2.2 - n)).map (fun j => w (n + j)) := by
  intro k
  induction k with
  | zero => intro n; simp [retryLoop]
  | succ k ih =>
    intro n
    rcases hc : c n with e | v
    · simp only [retryLoop, hc]
      by_cases hr : r e = true
      · rw [if_pos hr]
        have hge := retryLoop_final_ge r w c k (n + 1)
        have hws := ih (n + 1)
        simp only []
        have hm : (retryLoop r w c k (n + 1)).2.2 - n
            = ((retryLoop r w c k (n + 1)).2.2 - (n + 1)) + 1 := by omega
        rw [hws, hm, List.range_succ_eq_map]
        simp only [List.map_cons, List.map_map, Nat.add_zero, List.cons.injEq]
        refine ⟨trivial, ?_⟩
        apply List.map_congr_left
        intro j _
        simp only [Function.comp_apply]
        congr 1
        omega
      · rw [if_neg hr]
        simp
    · simp [retryLoop, hc]

/-! ## Lemmas about `upsert_vectors` -/

theorem upsertBatchesLoop_ok (env : UpsertEnv) (a : Nat) (m : Nat) :
    ∀ (bs : List (List VectorRecord)) (i t : Nat),
      upsertBatchesLoop env a bs i t = .ok m → m = t + (bs.map List.length).sum := by
  intro bs
  induction bs with
  | nil => intro i t h; simp only [upsertBatchesLoop] at h; simp at h; simp [h]
  | cons b bs ih =>
    intro i t h
    simp only [upsertBatchesLoop] at h
    rcases hw : env.write a i with _ | e
    · rw [hw] at h
      have := ih (i + 1) (t + b.length) h
      simp [this]
      omega
    · rw [hw] at h
      simp at h

theorem upsertAttempt_ok (env : UpsertEnv) (vectors : List VectorRecord)
    (a m : Nat) (h : upsertAttempt env vectors a = .ok m) : m = vectors.length := by
  unfold upsertAttempt at h
  split at h
  · next hv => simp at h; simp [hv, ← h]
  · next hv =>
    rcases hg : env.getIndex a with _ | e
    · rw [hg] at h
      have := upsertBatchesLoop_ok env a m (batched UPSERT_BATCH_SIZE vectors) 0 0 h
      rw [this, Nat.zero_add, ← List.length_flatten,
        batched_flatten UPSERT_BATCH_SIZE (by decide) vectors]
    · rw [hg] at h; simp at h

theorem upsert_ok_count (env : UpsertEnv) (index nsp : String)
    (vectors : List VectorRecord) (k : Nat)
    (h : (upsert_vectors env index nsp vectors).1 = .ok k) : k = vectors.length := by
  obtain ⟨m, hm⟩ := retryLoop_ok isPineconeRetryable (expJitterWait 1 30 env.jit)
    (upsertAttempt env vectors) k 4 1 h
  exact upsertAttempt_ok env vectors m k hm

/-! ## C6 -/

/-- C6 (counterexample): the claim says `upsert_vectors` *returns* the
cumulative count of vectors written before any unrecoverable failure.
With every `index.upsert` call raising a `PineconeException`, the call
exhausts its 5 attempts and re-raises the exception (`reraise=True`)
instead of returning a count. -/
theorem C6_counterexample :
    (upsert_vectors downUpsert "idx" "ns" [vec1]).1
      = .error (.pineconeException "connection reset")
    ∧ (upsert_vectors downUpsert "idx" "ns" [vec1]).2.2 = 5 := by decide

/-- C6 (amended): `upsert_vectors` partitions its input into batches of
at most 100 written sequentially, retries the whole operation on
transient failures with exponential backoff plus jitter for at most 5
attempts, and *when it returns* a count that count equals the input
length (all batches committed); an unrecoverable failure instead
propagates the final exception — only a non-retryable error or an
exhausted 5-attempt budget surfaces. -/
theorem C6_upsert_batching_retry (env : UpsertEnv) (index nsp : String)
    (vectors : List VectorRecord) (k : Nat)
    (hok : (upsert_vectors env index nsp vectors).1 = .ok k) :
    k = vectors.length
    ∧ (batched UPSERT_BATCH_SIZE vectors).flatten = vectors
    ∧ (∀ b ∈ batched UPSERT_BATCH_SIZE vectors, b.length ≤ UPSERT_BATCH_SIZE)
    ∧ (upsert_vectors env index nsp vectors).2.2 ≤ 5
    ∧ (upsert_vectors env index nsp vectors).2.1
        = (List.range ((upsert_vectors env index nsp vectors).2.2 - 1)).map
            (fun j => expJitterWait 1 30 env.jit (1 + j))
    ∧ (∀ (env' : UpsertEnv) (e : PyError),
        (upsert_vectors env' index nsp vectors).1 = .error e →
          isPineconeRetryable e = false
          ∨ (upsert_vectors env' index nsp vectors).2.2 = 5) := by
  refine ⟨upsert_ok_count env index nsp vectors k hok,
    batched_flatten UPSERT_BATCH_SIZE (by decide) vectors,
    batched_length_le UPSERT_BATCH_SIZE vectors,
    ?_, ?_, ?_⟩
  · simpa using retryLoop_final_le isPineconeRetryable (expJitterWait 1 30 env.jit)
      (upsertAttempt env vectors) 4 1
  · exact retryLoop_waits isPineconeRetryable (expJitterWait 1 30 env.jit)
      (upsertAttempt env vectors) 4 1
  · intro env' e he
    simpa using retryLoop_error_exhausts isPineconeRetryable
      (expJitterWait 1 30 env'.jit) (upsertAttempt env' vectors) e 4 1 he

/-- Witness for C6: a fully successful one-vector upsert, where the
amended theorem applies and the count equals the input length. -/
theorem C6_upsert_batching_retry_witness :
    ((upsert_vectors okUpsert "idx" "ns" [vec1]).1 = .ok 1)
    ∧ (1 = [vec1].length
       ∧ (batched UPSERT_BATCH_SIZE [vec1]).flatten = [vec1]
       ∧ (∀ b ∈ batched UPSERT_BATCH_SIZE [vec1], b.length ≤ UPSERT_BATCH_SIZE)
       ∧ (upsert_vectors okUpsert "idx" "ns" [vec1]).2.2 ≤ 5
       ∧ (upsert_vectors okUpsert "idx" "ns" [vec1]).2.1
           = (List.range ((upsert_vectors okUpsert "idx" "ns" [vec1]).2.2 - 1)).map
               (fun j => expJitterWait 1 30 okUpsert.jit (1 + j))
       ∧ (∀ (env' : UpsertEnv) (e : PyError),
           (upsert_vectors env' "idx" "ns" [vec1]).1 = .error e →
             isPineconeRetryable e = false
             ∨ (upsert_vectors env' "idx" "ns" [vec1]).2.2 = 5)) :=
  ⟨by decide, C6_upsert_batching_retry okUpsert "idx" "ns" [vec1] 1 (by decide)⟩

/-! ## C7 -/

theorem embed_texts_pointwise (call : List String → Nat → Except PyError (List Emb))
    (jit : Nat → ℚ) (f : String → Emb) (b : List String)
    (hcall : ∀ a, call b a = .ok (b.map f)) (hnb : ∀ t ∈ b, pyTrim t ≠ "") :
    embed_texts call jit b = .ok (b.map f) := by
  unfold embed_texts
  by_cases hb : b = []
  · subst hb
    simp
  · rw [if_neg hb]
    have hany : (b.any fun t => pyTrim t = "") = false := by
      rw [List.any_eq_false]
      intro t ht
      simpa using hnb t ht
    rw [hany]
    simp only [Bool.false_eq_true, if_false, retryLoop, hcall 1]

theorem embedBatchesLoop_pointwise (call : List String → Nat → Except PyError (List Emb))
    (jit : Nat → ℚ) (f : String → Emb) :
    ∀ (bs : List (List String)),
      (∀ b ∈ bs, ∀ a, call b a = .ok (b.map f)) →
      (∀ b ∈ bs, ∀ t ∈ b, pyTrim t ≠ "") →
      embedBatchesLoop call jit bs = .ok (bs.flatten.map f) := by
  intro bs
  induction bs with
  | nil => intro _ _; simp [embedBatchesLoop]
  | cons b bs ih =>
    intro hcall hnb
    have h1 : embed_texts call jit b = .ok (b.map f) :=
      embed_texts_pointwise call jit f b (hcall b (by simp))
        (hnb b (by simp))
    have h2 : embedBatchesLoop call jit bs = .ok (bs.flatten.map f) :=
      ih (fun b' hb' => hcall b' (by simp [hb'])) (fun b' hb' => hnb b' (by simp [hb']))
    simp [embedBatchesLoop, h1, h2]

theorem embedBatchesLoop_blank (call : List String → Nat → Except PyError (List Emb))
    (jit : Nat → ℚ) (f : String → Emb) :
    ∀ (bs : List (List String)),
      (∀ b ∈ bs, ∀ a, call b a = .ok (b.map f)) →
      (∃ t ∈ bs.flatten, pyTrim t = "") →
      embedBatchesLoop call jit bs
        = .error (.valueError "All texts must be non-empty strings for embedding.") := by
  intro bs
  induction bs with
  | nil => intro _ h; simp at h
  | cons b bs ih =>
    intro hcall hblank
    by_cases hb : ∃ t ∈ b, pyTrim t = ""
    · obtain ⟨t, ht, htb⟩ := hb
      have hbn : b ≠ [] := by
        intro hc
        rw [hc] at ht
        simp at ht
      have : embed_texts call jit b
          = .error (.valueError "All texts must be non-empty strings for embedding.") := by
        unfold embed_texts
        rw [if_neg hbn]
        have hany : (b.any fun t => pyTrim t = "") = true := by
          rw [List.any_eq_true]
          exact ⟨t, ht, by simpa using htb⟩
        rw [hany]
        simp
      simp [embedBatchesLoop, this]
    · have h1 : embed_texts call jit b = .ok (b.map f) :=
        embed_texts_pointwise call jit f b (hcall b (by simp))
          (fun t ht hc => hb ⟨t, ht, hc⟩)
      have hrest : ∃ t ∈ bs.flatten, pyTrim t = "" := by
        obtain ⟨t, ht, htb⟩ := hblank
        rw [List.flatten_cons, List.mem_append] at ht
        rcases ht with ht | ht
        · exact absurd ⟨t, ht, htb⟩ hb
        · exact ⟨t, ht, htb⟩
      have h2 := ih (fun b' hb' => hcall b' (by simp [hb'])) hrest
      simp [embedBatchesLoop, h1, h2]

/-- C7: whenever every external embedding call answers one vector per
input text in order (modelled by a pointwise function `f`),
`embed_texts_batched` maps `N` non-blank texts to exactly `N` vectors in
input order — `texts.map f` — for every `N` (zero, one, one batch, many
batches); and when any text is blank it raises the `ValueError` of
`embed_texts` instead of returning. -/
theorem C7_embed_count_and_order
    (call : List String → Nat → Except PyError (List Emb)) (jit : Nat → ℚ)
    (f : String → Emb) (texts : List String)
    (hcall : ∀ (b : List String) (a : Nat), call b a = .ok (b.map f)) :
    ((∀ t ∈ texts, pyTrim t ≠ "") →
      embed_texts_batched call jit texts = .ok (texts.map f)
      ∧ ∀ v, embed_texts_batched call jit texts = .ok v → v.length = texts.length)
    ∧ ((∃ t ∈ texts, pyTrim t = "") →
      embed_texts_batched call jit texts
        = .error (.valueError "All texts must be non-empty strings for embedding.")) := by
  have hjoin : (batched EMBEDDING_BATCH_SIZE texts).flatten = texts :=
    batched_flatten EMBEDDING_BATCH_SIZE (by decide) texts
  constructor
  · intro hnb
    have hok : embed_texts_batched call jit texts = .ok (texts.map f) := by
      unfold embed_texts_batched
      by_cases ht : texts = []
      · subst ht
        simp
      · rw [if_neg ht]
        have := embedBatchesLoop_pointwise call jit f
          (batched EMBEDDING_BATCH_SIZE texts)
          (fun b _ a => hcall b a)
          (fun b hb t htb => hnb t (by rw [← hjoin]; exact List.mem_flatten.mpr ⟨b, hb, htb⟩))
        rw [this, hjoin]
    refine ⟨hok, ?_⟩
    intro v hv
    rw [hok] at hv
    have : texts.map f = v := by simpa using hv
    rw [← this, List.length_map]
  · intro hblank
    have ht : texts ≠ [] := by
      obtain ⟨t, ht, _⟩ := hblank
      intro hc
      rw [hc] at ht
      simp at ht
    unfold embed_texts_batched
    rw [if_neg ht]
    exact embedBatchesLoop_blank call jit f (batched EMBEDDING_BATCH_SIZE texts)
      (fun b _ a => hcall b a) (by rw [hjoin]; exact hblank)

/-- Witness for C7: 21 one-character texts (spanning more than one batch
of 20) embed to 21 vectors in order; the hypothesis on the external call
is discharged by the concrete pointwise embedding service. -/
theorem C7_embed_count_and_order_witness :
    (∀ (b : List String) (a : Nat),
      pointwiseEmbed b a = .ok (b.map (fun t => [(t.length : Int)])))
    ∧ ((∀ t ∈ List.replicate 21 "a", pyTrim t ≠ "") →
        embed_texts_batched pointwiseEmbed (fun _ => 0) (List.replicate 21 "a")
          = .ok ((List.replicate 21 "a").map (fun t => [(t.length : Int)]))
        ∧ ∀ v, embed_texts_batched pointwiseEmbed (fun _ => 0) (List.replicate 21 "a")
            = .ok v → v.length = (List.replicate 21 "a").length)
    ∧ ((∃ t ∈ List.replicate 21 "a", pyTrim t = "") →
        embed_texts_batched pointwiseEmbed (fun _ => 0) (List.replicate 21 "a")
          = .error (.valueError "All texts must be non-empty strings for embedding.")) :=
  ⟨fun _ _ => rfl,
   (C7_embed_count_and_order pointwiseEmbed (fun _ => 0)
      (fun t => [(t.length : Int)]) (List.replicate 21 "a") (fun _ _ => rfl)).1,
   (C7_embed_count_and_order pointwiseEmbed (fun _ => 0)
      (fun t => [(t.length : Int)]) (List.replicate 21 "a") (fun _ _ => rfl)).2⟩

/-! ## `app/api/ingest.py` — the ingest handler -/

/-- The observable outcome of `POST /v1/ingest`: HTTP 400 with a detail
(from the `except ValueError` handler) and no jobs, or HTTP 202 with the
created job records. -/
structure IngestResponse where
  status : Nat
  detail : Option String
  jobs : List IngestJobRecord
  deriving Repr

/-- The per-upload validation loop of `ingest_documents`
(`for upload in file: validate_ingest_request(...)`), stopping at the
first `ValueError`. -/
def validateFiles (nsp : Option String) (index : String) (mode : RoutingMode) :
    List (Option String) → Except PyError Unit
  | [] => .ok ()
  | f :: fs =>
    match validate_ingest_request (some (f.getD "")) nsp index mode with
    | .error e => .error e
    | .ok _ => validateFiles nsp index mode fs

/-- The namespace normalization of the handler:
`namespace = namespace.strip() if namespace else None`, and a stripped
empty string also becomes `None`. -/
def normalizeNamespaceField (nsp0 : Option String) : Option String :=
  match nsp0 with
  | none => none
  | some s => if pyTrim s = "" then none else some (pyTrim s)

/-- The index resolution of the handler: a missing/blank index falls
back to the configured `pinecone_index`, then is stripped. -/
def resolveIndex (index0 : Option String) (defaultIndex : String) : String :=
  pyTrim (match index0 with
    | none => defaultIndex
    | some s => if pyTrim s = "" then defaultIndex else s)

/-- `ingest_documents` (`app/api/ingest.py` lines 55-114): normalize the
namespace and index, validate every upload, and only then create and
queue one job per upload.  `jobIds`, `contentTypes` and `savedPath` are
the external collaborators (uuid4, the upload's content type, and
`save_uploaded_file`). -/
def ingest_documents (files : List (Option String)) (nsp0 : Option String)
    (index0 : Option String) (defaultIndex : String) (mode : RoutingMode)
    (jobIds : Nat → String) (contentTypes : Nat → Option String)
    (savedPath : Nat → String) (srcUrl : Option String) : IngestResponse :=
  if files = [] then ⟨400, some "At least one file is required.", []⟩
  else
    match validateFiles (normalizeNamespaceField nsp0)
        (resolveIndex index0 defaultIndex) mode files with
    | .error e => ⟨400, some e.message, []⟩
    | .ok _ =>
      ⟨202, none,
        (List.range files.length).map (fun i =>
          add_file_to_queue (jobIds i) ((files.getD i none).getD "")
            (contentTypes i) (savedPath i) (normalizeNamespaceField nsp0)
            (resolveIndex index0 defaultIndex) mode srcUrl)⟩

/-! ## C8 -/

/-- C8: ingest validation rejects an unsupported extension with a
message citing it, rejects `manual` with an empty/missing namespace,
rejects any non-manual mode with a non-empty namespace, passes (for an
allowed extension, non-blank index and a supplied namespace) exactly
when the mode is manual and the namespace value is valid — and a
validation failure yields HTTP 400 with no job created. -/
theorem C8_validation_rules :
    (∀ (nsp : Option String) (idx : String) (mode : RoutingMode),
      validate_ingest_request (some "file.exe") nsp idx mode
        = .error (.valueError "Unsupported file type .exe."))
    ∧ (∀ (f : String) (nsp : Option String) (idx : String),
        f ≠ "" → pyTrim f ≠ "" →
        ALLOWED_EXTENSIONS.contains ("." ++ extOf f) = true →
        pyTrim (nsp.getD "") = "" →
        validate_ingest_request (some f) nsp idx .manual
          = .error (.valueError "Namespace is required when routing_mode is manual."))
    ∧ (∀ (f nsp idx : String) (mode : RoutingMode),
        f ≠ "" → pyTrim f ≠ "" →
        ALLOWED_EXTENSIONS.contains ("." ++ extOf f) = true →
        mode ≠ .manual → pyTrim nsp ≠ "" →
        validate_ingest_request (some f) (some nsp) idx mode
          = .error (.valueError "Namespace is only allowed when routing_mode is manual."))
    ∧ (∀ (f nsp idx : String) (mode : RoutingMode),
        f ≠ "" → pyTrim f ≠ "" →
        ALLOWED_EXTENSIONS.contains ("." ++ extOf f) = true →
        pyTrim idx ≠ "" → pyTrim nsp ≠ "" →
        (validate_ingest_request (some f) (some nsp) idx mode = .ok ()
          ↔ (mode = .manual ∧ is_valid_namespace (pyTrim nsp) = true)))
    ∧ (∀ files nsp0 index0 defaultIndex mode jobIds cts paths src,
        (ingest_documents files nsp0 index0 defaultIndex mode jobIds cts paths src).status
          = 400 →
        (ingest_documents files nsp0 index0 defaultIndex mode jobIds cts paths src).jobs
          = []) := by
  refine ⟨fun nsp idx mode => rfl, ?_, ?_, ?_, ?_⟩
  · intro f nsp idx h1 h2 h3 h4
    simp only [validate_ingest_request, Option.getD_some]
    rw [if_neg (by push_neg; exact ⟨h1, h2⟩), if_neg (by simpa using h3),
      if_pos trivial, if_pos h4]
  · intro f nsp idx mode h1 h2 h3 hm h5
    simp only [validate_ingest_request, Option.getD_some]
    rw [if_neg (by push_neg; exact ⟨h1, h2⟩), if_neg (by simpa using h3),
      if_neg hm, if_pos h5]
  · intro f nsp idx mode h1 h2 h3 h4 h5
    simp only [validate_ingest_request, Option.getD_some]
    rw [if_neg (by push_neg; exact ⟨h1, h2⟩), if_neg (by simpa using h3)]
    constructor
    · intro hok
      by_cases hm : mode = RoutingMode.manual
      · subst hm
        rw [if_pos rfl, if_neg h5] at hok
        by_cases hv : is_valid_namespace (pyTrim nsp) = true
        · exact ⟨rfl, hv⟩
        · rw [if_pos hv] at hok
          simp at hok
      · rw [if_neg hm, if_pos h5] at hok
        simp at hok
    · rintro ⟨hm, hv⟩
      subst hm
      rw [if_pos rfl, if_neg h5, if_neg (not_not_intro hv), if_neg h4]
  · intro files nsp0 index0 defaultIndex mode jobIds cts paths src
    unfold ingest_documents
    split
    · intro _
      rfl
    · split
      · intro _
        rfl
      · intro h
        simp at h

/-- Witness for C8: a manual-mode request with an allowed extension, a
valid namespace and a non-blank index passes validation; the
hypotheses of the rule are discharged at this concrete input. -/
theorem C8_validation_rules_witness :
    ("file.pdf" ≠ "" ∧ pyTrim "file.pdf" ≠ ""
      ∧ ALLOWED_EXTENSIONS.contains ("." ++ extOf "file.pdf") = true
      ∧ pyTrim "idx" ≠ "" ∧ pyTrim "projects" ≠ "")
    ∧ (validate_ingest_request (some "file.pdf") (some "projects") "idx" .manual
        = .ok ()
      ↔ (RoutingMode.manual = .manual
         ∧ is_valid_namespace (pyTrim "projects") = true)) :=
  ⟨⟨by decide, by decide, by decide, by decide, by decide⟩,
   C8_validation_rules.2.2.2.1 "file.pdf" "projects" "idx" .manual
     (by decide) (by decide) (by decide) (by decide) (by decide)⟩

/-! ## Shape lemmas for `process_job` -/

/-- The status sequences a `process_job` run can write. -/
def possibleTraces : List (List String) :=
  [["failed"],
   ["chunking", "failed"],
   ["chunking", "routing", "failed"],
   ["chunking", "routing", "embedding", "failed"],
   ["chunking", "routing", "embedding", "upserting", "failed"],
   ["chunking", "routing", "embedding", "upserting", "completed"]]

theorem errString_ne_empty (e : PyError) : errString e ≠ "" := by
  intro h
  have hlen := congrArg String.length h
  rw [errString, String.length_append, String.length_append] at hlen
  have h1 : 0 < e.typeName.length := by
    cases e <;> simp only [PyError.typeName] <;> decide
  have h0 : ("" : String).length = 0 := rfl
  omega

theorem failResult_shape (rec : IngestJobRecord) (tr : List String)
    (e : PyError) (flag : Bool) :
    (failResult rec tr e flag).trace = tr ++ ["failed"]
    ∧ (failResult rec tr e flag).record.status = "failed"
    ∧ (failResult rec tr e flag).cleanupRan = false
    ∧ (failResult rec tr e flag).record.error = some (errString (unwrapRetry e)) :=
  ⟨rfl, rfl, rfl, rfl⟩

theorem par_shape (env : JobEnv) (rec : IngestJobRecord)
    (chunks : List ParsedChunk) (ct : String) (nss : List String)
    (rfu flag : Bool) :
    ((pipelineAfterRouting env rec chunks ct nss rfu flag).trace ∈ possibleTraces)
    ∧ (pipelineAfterRouting env rec chunks ct nss rfu flag).record.status
        = (pipelineAfterRouting env rec chunks ct nss rfu flag).trace.getLastD ""
    ∧ ((pipelineAfterRouting env rec chunks ct nss rfu flag).cleanupRan = true
        ↔ (pipelineAfterRouting env rec chunks ct nss rfu flag).record.status = "completed")
    ∧ ((pipelineAfterRouting env rec chunks ct nss rfu flag).record.status = "failed" →
        ∃ e, (pipelineAfterRouting env rec chunks ct nss rfu flag).record.error
          = some (errString (unwrapRetry e))) := by
  unfold pipelineAfterRouting
  dsimp only
  split
  · exact ⟨by simp [failResult, possibleTraces], rfl, by simp [failResult],
      fun _ => ⟨_, rfl⟩⟩
  · split
    · exact ⟨by simp [failResult, possibleTraces], rfl, by simp [failResult],
        fun _ => ⟨_, rfl⟩⟩
    · split
      · exact ⟨by simp [failResult, possibleTraces], rfl, by simp [failResult],
          fun _ => ⟨_, rfl⟩⟩
      · split
        · exact ⟨by simp [failResult, possibleTraces], rfl, by simp [failResult],
            fun _ => ⟨_, rfl⟩⟩
        · exact ⟨by simp [possibleTraces], rfl, by simp,
            fun h => absurd h (by simp)⟩

theorem process_job_shape (env : JobEnv) (rec : IngestJobRecord) (flagIn : Bool) :
    ((process_job env rec flagIn).trace ∈ possibleTraces)
    ∧ (process_job env rec flagIn).record.status
        = (process_job env rec flagIn).trace.getLastD ""
    ∧ ((process_job env rec flagIn).cleanupRan = true
        ↔ (process_job env rec flagIn).record.status = "completed")
    ∧ ((process_job env rec flagIn).record.status = "failed" →
        ∃ e, (process_job env rec flagIn).record.error
          = some (errString (unwrapRetry e))) := by
  unfold process_job
  dsimp only
  split
  · exact ⟨by simp [failResult, possibleTraces], rfl, by simp [failResult],
      fun _ => ⟨_, rfl⟩⟩
  · split
    · exact ⟨by simp [failResult, possibleTraces], rfl, by simp [failResult],
        fun _ => ⟨_, rfl⟩⟩
    · split
      · exact ⟨by simp [failResult, possibleTraces], rfl, by simp [failResult],
          fun _ => ⟨_, rfl⟩⟩
      · split
        · exact ⟨by simp [failResult, possibleTraces], rfl, by simp [failResult],
            fun _ => ⟨_, rfl⟩⟩
        · split
          · exact par_shape env rec _ _ _ _ _
          · split
            · exact ⟨by simp [failResult, possibleTraces], rfl, by simp [failResult],
                fun _ => ⟨_, rfl⟩⟩
            · exact par_shape env rec _ _ _ _ _
          · split
            · exact ⟨by simp [failResult, possibleTraces], rfl, by simp [failResult],
                fun _ => ⟨_, rfl⟩⟩
            · exact par_shape env rec _ _ _ _ _

/-! ## C3 -/

/-- Position of a status value along the pipeline order (statuses outside
the machine rank above every real one). -/
def statusRank (s : String) : Nat :=
  if s = "queued" then 0
  else if s = "chunking" then 1
  else if s = "routing" then 2
  else if s = "embedding" then 3
  else if s = "upserting" then 4
  else if s = "completed" then 5
  else if s = "failed" then 6
  else 7

/-- The allowed status transitions of §4.5: one step forward along
`queued → chunking → routing → embedding → upserting → completed`, or a
jump to `failed` from `queued` (validation failure, §4.5 step 2) or any
processing stage. -/
def allowedStep (s t : String) : Bool :=
  (s = "queued" && t = "chunking")
  || (s = "chunking" && t = "routing")
  || (s = "routing" && t = "embedding")
  || (s = "embedding" && t = "upserting")
  || (s = "upserting" && t = "completed")
  || ((s = "queued" || s = "chunking" || s = "routing"
       || s = "embedding" || s = "upserting") && t = "failed")

/-- `chainB r l`: every adjacent pair of `l` satisfies `r`. -/
def chainB (r : String → String → Bool) : List String → Bool
  | [] => true
  | [_] => true
  | a :: b :: rest => r a b && chainB r (b :: rest)

/-- Strict rank increase between two statuses. -/
def rankLt (a b : String) : Bool :=
  Nat.blt (statusRank a) (statusRank b)

/-- An environment whose parse stage fails (`parse_file` raising). -/
def envParseFail : JobEnv :=
  { envManualOk with parse := .error (.valueError "File is empty: /tmp/f.txt") }

/-- An environment whose embedding stage is rate-limited on every attempt. -/
def envEmbedFail : JobEnv :=
  { envManualOk with embedCall := fun _ _ => .error (.rateLimitError "429 too many requests") }

/-- An environment whose upsert stage fails on every attempt. -/
def envUpsertFail : JobEnv :=
  { envManualOk with upsertEnv := fun _ => downUpsert }

/-- C3: records are created at `queued` only; every `process_job` run
writes a status sequence that is a chain of allowed one-step-forward /
fail transitions, strictly increasing in pipeline rank (no regression,
no re-entry, no skipping among the non-failed statuses), ending at
`completed` or `failed` which never occur earlier (terminal/absorbing);
and `failed` is reachable from each of the four processing stages. -/
theorem C3_status_machine :
    (∀ (job_id filename : String) (ct : Option String) (fp : String)
       (nsp : Option String) (idx : String) (m : RoutingMode) (su : Option String),
      (add_file_to_queue job_id filename ct fp nsp idx m su).status = "queued")
    ∧ (∀ (env : JobEnv) (rec : IngestJobRecord) (flagIn : Bool),
        chainB allowedStep ("queued" :: (process_job env rec flagIn).trace) = true
        ∧ chainB rankLt ("queued" :: (process_job env rec flagIn).trace) = true
        ∧ ("queued" :: (process_job env rec flagIn).trace).getLastD ""
            ∈ (["completed", "failed"] : List String)
        ∧ (process_job env rec flagIn).record.status
            = ("queued" :: (process_job env rec flagIn).trace).getLastD ""
        ∧ "failed" ∉ ("queued" :: (process_job env rec flagIn).trace).dropLast
        ∧ "completed" ∉ ("queued" :: (process_job env rec flagIn).trace).dropLast)
    ∧ (∃ e r f, (process_job e r f).trace = ["chunking", "failed"])
    ∧ (∃ e r f, (process_job e r f).trace = ["chunking", "routing", "failed"])
    ∧ (∃ e r f, (process_job e r f).trace
        = ["chunking", "routing", "embedding", "failed"])
    ∧ (∃ e r f, (process_job e r f).trace
        = ["chunking", "routing", "embedding", "upserting", "failed"]) := by
  refine ⟨fun _ _ _ _ _ _ _ _ => rfl, ?_,
    ⟨envParseFail, recManual, false, by decide⟩,
    ⟨envPerChunkBadToken, recPerChunk, false, by decide⟩,
    ⟨envEmbedFail, recManual, false, by decide⟩,
    ⟨envUpsertFail, recManual, false, by decide⟩⟩
  intro env rec flagIn
  obtain ⟨hmem, hstatus, -, -⟩ := process_job_shape env rec flagIn
  have hfacts : ∀ t ∈ possibleTraces,
      chainB allowedStep ("queued" :: t) = true
      ∧ chainB rankLt ("queued" :: t) = true
      ∧ ("queued" :: t).getLastD "" ∈ (["completed", "failed"] : List String)
      ∧ t.getLastD "" = ("queued" :: t).getLastD ""
      ∧ "failed" ∉ ("queued" :: t).dropLast
      ∧ "completed" ∉ ("queued" :: t).dropLast := by decide
  obtain ⟨h1, h2, h3, h4, h5, h6⟩ := hfacts _ hmem
  exact ⟨h1, h2, h3, hstatus.trans h4, h5, h6⟩

/-! ## C4 -/

theorem upsertGroups_ok (env : JobEnv) (idx : String) :
    ∀ (gs : List (String × List VectorRecord)) (t w : Nat),
      upsertGroups env idx gs t = .ok w →
      w = t + (gs.map (fun g => g.2.length)).sum := by
  intro gs
  induction gs with
  | nil =>
    intro t w h
    simp only [upsertGroups] at h
    simp at h
    simp [h]
  | cons g gs ih =>
    intro t w h
    obtain ⟨ns, vecs⟩ := g
    simp only [upsertGroups] at h
    rcases hu : (upsert_vectors (env.upsertEnv ns) idx ns vecs).1 with e | n
    · rw [hu] at h
      simp at h
    · rw [hu] at h
      have hn : n = vecs.length :=
        upsert_ok_count (env.upsertEnv ns) idx ns vecs n hu
      have := ih (t + n) w h
      simp only [List.map_cons, List.sum_cons]
      omega

theorem sizeSum_insertGrouped (k : String) (v : VectorRecord) :
    ∀ (gs : List (String × List VectorRecord)),
      ((insertGrouped k v gs).map (fun g => g.2.length)).sum
        = ((gs.map (fun g => g.2.length)).sum) + 1 := by
  intro gs
  induction gs with
  | nil => simp [insertGrouped]
  | cons g gs ih =>
    obtain ⟨k', vs⟩ := g
    by_cases hk : k' = k
    · simp [insertGrouped, hk]
      omega
    · simp [insertGrouped, hk, ih]
      omega

theorem sizeSum_groupBy (l : List (String × VectorRecord)) :
    ((groupByNamespace l).map (fun g => g.2.length)).sum = l.length := by
  suffices h : ∀ (l : List (String × VectorRecord))
      (acc : List (String × List VectorRecord)),
      ((l.foldl (fun acc kv => insertGrouped kv.1 kv.2 acc) acc).map
        (fun g => g.2.length)).sum
      = ((acc.map (fun g => g.2.length)).sum) + l.length by
    simpa using h l []
  intro l
  induction l with
  | nil => intro acc; simp
  | cons kv l ih =>
    intro acc
    simp only [List.foldl_cons, List.length_cons]
    rw [ih (insertGrouped kv.1 kv.2 acc), sizeSum_insertGrouped]
    omega

theorem buildVectors_length (md5 : String → String) (ct su : String) :
    ∀ (cs : List ParsedChunk) (es : List Emb) (nss : List String),
      es.length = cs.length → nss.length = cs.length →
      (buildVectors md5 ct su cs es nss).length = cs.length := by
  intro cs
  induction cs with
  | nil => intro es nss _ _; simp [buildVectors]
  | cons c cs ih =>
    intro es nss he hn
    cases es with
    | nil => simp at he
    | cons e es =>
      cases nss with
      | nil => simp at hn
      | cons n nss =>
        simp only [buildVectors, List.length_cons] at *
        rw [ih es nss (by omega) (by omega)]

theorem classify_ok_length (model : String) (outcomes : Nat → LLMOutcome) :
    ∀ (cs : List ParsedChunk) (i : Nat) (fl : Bool) (nss : List Namespace)
      (fl' : Bool),
      classify_chunks_individually model outcomes cs i fl = (.ok nss, fl') →
      nss.length = cs.length := by
  intro cs
  induction cs with
  | nil =>
    intro i fl nss fl' h
    simp only [classify_chunks_individually] at h
    have h1 : (Except.ok [] : Except PyError (List Namespace)) = .ok nss :=
      congrArg Prod.fst h
    have h2 : ([] : List Namespace) = nss := by simpa using h1
    simp [← h2]
  | cons c cs ih =>
    intro i fl nss fl' h
    simp only [classify_chunks_individually] at h
    split at h
    · simp at h
    · next ns flag' _ =>
      split at h
      · next rest flag'' hrec =>
        have h1 : ns :: rest = nss := by
          have := congrArg Prod.fst h
          simpa using this
        rw [← h1, List.length_cons, ih (i + 1) flag' rest flag'' hrec,
          List.length_cons]
      · simp at h

theorem par_completed (env : JobEnv) (rec : IngestJobRecord)
    (chunks : List ParsedChunk) (ct : String) (nss : List String)
    (rfu flag : Bool) (hns : nss.length = chunks.length)
    (hdone : (pipelineAfterRouting env rec chunks ct nss rfu flag).record.status
      = "completed") :
    (pipelineAfterRouting env rec chunks ct nss rfu flag).record.chunks_processed
      = some (pipelineAfterRouting env rec chunks ct nss rfu flag).written := by
  revert hdone
  unfold pipelineAfterRouting
  dsimp only
  by_cases hrfu : rfu = true
  · rw [if_pos hrfu]
    intro h
    exact absurd h (by simp [failResult])
  · rw [if_neg hrfu]
    rcases hemb : embed_texts_batched env.embedCall env.embedJit
        (chunks.map (fun c => c.context_summary.getD c.text)) with e | embeddings
    · simp only [hemb]
      intro h
      exact absurd h (by simp [failResult])
    · simp only [hemb]
      by_cases hlen : embeddings.length ≠ chunks.length
      · rw [if_pos hlen]
        intro h
        exact absurd h (by simp [failResult])
      · rw [if_neg hlen]
        rcases hup : upsertGroups env rec.metaIndex
            (groupByNamespace (buildVectors env.md5Hex ct rec.metaSourceUrl
              chunks embeddings nss)) 0 with e | written
        · simp only [hup]
          intro h
          exact absurd h (by simp [failResult])
        · simp only [hup]
          intro _
          have hle : embeddings.length = chunks.length := not_not.mp hlen
          have hw := upsertGroups_ok env rec.metaIndex _ 0 written hup
          rw [sizeSum_groupBy] at hw
          rw [buildVectors_length env.md5Hex ct rec.metaSourceUrl chunks embeddings
            nss hle hns] at hw
          simp [hw]

/-- C4: a job that reaches `completed` records `chunks_processed` equal
to the total number of vector records written across all namespace
groups (the sum of the counts the successful upsert calls return), and
the staged-file cleanup ran — moreover cleanup runs *only* on success. -/
theorem C4_completed_accounting :
    (∀ (env : JobEnv) (rec : IngestJobRecord) (flagIn : Bool),
      (process_job env rec flagIn).record.status = "completed" →
        (process_job env rec flagIn).record.chunks_processed
          = some (process_job env rec flagIn).written
        ∧ (process_job env rec flagIn).cleanupRan = true)
    ∧ (∀ (env : JobEnv) (rec : IngestJobRecord) (flagIn : Bool),
        (process_job env rec flagIn).cleanupRan = true →
        (process_job env rec flagIn).record.status = "completed") := by
  constructor
  · intro env rec flagIn hdone
    obtain ⟨-, -, hiff, -⟩ := process_job_shape env rec flagIn
    refine ⟨?_, hiff.mpr hdone⟩
    revert hdone
    unfold process_job
    dsimp only
    split
    · intro h
      exact absurd h (by simp [failResult])
    · split
      · intro h
        exact absurd h (by simp [failResult])
      · split
        · intro h
          exact absurd h (by simp [failResult])
        · split
          · intro h
            exact absurd h (by simp [failResult])
          · split
            · exact par_completed env rec _ _ _ _ _ (by simp)
            · split
              · intro h
                exact absurd h (by simp [failResult])
              · next nss flag' hcl =>
                exact par_completed env rec _ _ _ _ _
                  (by rw [List.length_map]
                      exact classify_ok_length env.model env.routeOutcome _ 0
                        flagIn nss flag' hcl)
            · split
              · intro h
                exact absurd h (by simp [failResult])
              · exact par_completed env rec _ _ _ _ _ (by simp)
  · intro env rec flagIn hclean
    obtain ⟨-, -, hiff, -⟩ := process_job_shape env rec flagIn
    exact hiff.mp hclean

/-- Witness for C4: the successful one-chunk manual job completes with
`chunks_processed` equal to the one vector written and cleanup run. -/
theorem C4_completed_accounting_witness :
    ((process_job envManualOk recManual false).record.status = "completed")
    ∧ ((process_job envManualOk recManual false).record.chunks_processed
        = some (process_job envManualOk recManual false).written
      ∧ (process_job envManualOk recManual false).cleanupRan = true) :=
  ⟨by decide, C4_completed_accounting.1 envManualOk recManual false (by decide)⟩

/-! ## C5 -/

/-- C5: a job that reaches `failed` leaves its staged input file in
place (cleanup never runs on failure), records a non-empty
`"<ErrorKind>: <message>"` error string that names the innermost cause
(`unwrapRetry` extracts a tenacity `RetryError`'s last attempt, not the
wrapper), and `process_job` — a total function — hands nothing back to
the scheduler but this record. -/
theorem C5_failure_reporting :
    (∀ (env : JobEnv) (rec : IngestJobRecord) (flagIn : Bool),
      (process_job env rec flagIn).record.status = "failed" →
        (process_job env rec flagIn).cleanupRan = false
        ∧ ∃ e : PyError,
            (process_job env rec flagIn).record.error
              = some (errString (unwrapRetry e))
            ∧ errString (unwrapRetry e) ≠ "")
    ∧ (∀ e : PyError, unwrapRetry (.retryError e) = e)
    ∧ (∀ e : PyError, errString e = e.typeName ++ ": " ++ e.message) := by
  refine ⟨?_, fun e => rfl, fun e => rfl⟩
  intro env rec flagIn hfail
  obtain ⟨-, -, hiff, herr⟩ := process_job_shape env rec flagIn
  obtain ⟨e, he⟩ := herr hfail
  refine ⟨?_, e, he, errString_ne_empty (unwrapRetry e)⟩
  by_cases hc : (process_job env rec flagIn).cleanupRan = true
  · have := hiff.mp hc
    rw [this] at hfail
    exact absurd hfail (by decide)
  · simpa using hc

/-- Witness for C5: the parse-failure job fails, leaves the staged file
(cleanup did not run) and records a non-empty error string. -/
theorem C5_failure_reporting_witness :
    ((process_job envParseFail recManual false).record.status = "failed")
    ∧ ((process_job envParseFail recManual false).cleanupRan = false
       ∧ ∃ e : PyError,
           (process_job envParseFail recManual false).record.error
             = some (errString (unwrapRetry e))
           ∧ errString (unwrapRetry e) ≠ "") :=
  ⟨by decide, C5_failure_reporting.1 envParseFail recManual false (by decide)⟩

/-! ## C9 — the concurrency gate

`process_job_with_limit` wraps the pipeline body in
`async with _PROCESSING_SEMAPHORE` where `_PROCESSING_SEMAPHORE =
asyncio.Semaphore(1)`.  The semaphore's interleaving semantics is a
transition system: a scheduled task waits, acquires the gate only when
its counter is positive (decrementing it), runs the pipeline body, and
releases (incrementing) when done. -/

inductive TaskPhase
  | waiting
  | running
  | done
  deriving DecidableEq, Repr

/-- Gate state for `n` concurrently scheduled jobs: the semaphore counter
and each task's phase. -/
structure GateState (n : Nat) where
  sem : Nat
  tasks : Fin n → TaskPhase

/-- Initial state: the semaphore holds 1 permit
(`asyncio.Semaphore(1)`), every scheduled job waits for the gate. -/
def initGate (n : Nat) : GateState n := ⟨1, fun _ => .waiting⟩

/-- One scheduler step: `acquire` admits a waiting task when the counter
is positive (the `async with` entry), `release` retires a running task
(the `async with` exit). -/
inductive GateStep (n : Nat) : GateState n → GateState n → Prop
  | acquire (i : Fin n) (s : GateState n) (hsem : 0 < s.sem)
      (hw : s.tasks i = .waiting) :
      GateStep n s ⟨s.sem - 1, Function.update s.tasks i .running⟩
  | release (i : Fin n) (s : GateState n) (hr : s.tasks i = .running) :
      GateStep n s ⟨s.sem + 1, Function.update s.tasks i .done⟩

/-- Number of tasks currently executing the pipeline body. -/
def runningCount {n : Nat} (s : GateState n) : Nat :=
  (Finset.univ.filter (fun i => s.tasks i = TaskPhase.running)).card

theorem runningCount_update_to_running {n : Nat} (f : Fin n → TaskPhase)
    (i : Fin n) (h : f i = TaskPhase.waiting) :
    (Finset.univ.filter
        (fun x => Function.update f i TaskPhase.running x = TaskPhase.running)).card
      = (Finset.univ.filter (fun x => f x = TaskPhase.running)).card + 1 := by
  have h' : f i ≠ TaskPhase.running := by rw [h]; decide
  have hset : Finset.univ.filter
      (fun x => Function.update f i TaskPhase.running x = TaskPhase.running)
      = insert i (Finset.univ.filter (fun x => f x = TaskPhase.running)) := by
    ext x
    by_cases hx : x = i
    · subst hx
      simp [Function.update_same]
    · simp [Function.update_noteq hx, hx]
  rw [hset, Finset.card_insert_of_not_mem (by simp [h'])]

theorem runningCount_update_to_done {n : Nat} (f : Fin n → TaskPhase)
    (i : Fin n) (h : f i = TaskPhase.running) :
    ((Finset.univ.filter
        (fun x => Function.update f i TaskPhase.done x = TaskPhase.running)).card
      = (Finset.univ.filter (fun x => f x = TaskPhase.running)).card - 1)
    ∧ 0 < (Finset.univ.filter (fun x => f x = TaskPhase.running)).card := by
  have hset : Finset.univ.filter
      (fun x => Function.update f i TaskPhase.done x = TaskPhase.running)
      = (Finset.univ.filter (fun x => f x = TaskPhase.running)).erase i := by
    ext x
    by_cases hx : x = i
    · subst hx
      simp [Function.update_same]
    · simp [Function.update_noteq hx, hx]
  refine ⟨by rw [hset, Finset.card_erase_of_mem (by simp [h])], ?_⟩
  exact Finset.card_pos.mpr ⟨i, by simp [h]⟩

/-- The single-flight invariant: permits plus running tasks always total
one. -/
theorem gate_invariant {n : Nat} (s : GateState n)
    (h : Relation.ReflTransGen (GateStep n) (initGate n) s) :
    s.sem + runningCount s = 1 := by
  induction h with
  | refl =>
    simp [initGate, runningCount]
  | tail _ hstep ih =>
    cases hstep with
    | acquire i t hsem hw =>
      have hcnt := runningCount_update_to_running _ i hw
      simp only [runningCount] at ih ⊢
      rw [hcnt]
      omega
    | release i t hr =>
      obtain ⟨hcnt, hpos⟩ := runningCount_update_to_done _ i hr
      simp only [runningCount] at ih ⊢
      rw [hcnt]
      omega

/-- C9: in every state reachable from the initial gate state, no two
distinct scheduled jobs are executing the pipeline body simultaneously —
the capacity-one semaphore serializes `process_job_with_limit`. -/
theorem C9_single_flight (n : Nat) (s : GateState n)
    (h : Relation.ReflTransGen (GateStep n) (initGate n) s)
    (i j : Fin n) (hij : i ≠ j) :
    ¬ (s.tasks i = TaskPhase.running ∧ s.tasks j = TaskPhase.running) := by
  rintro ⟨hi, hj⟩
  have hinv := gate_invariant s h
  have hsub : ({i, j} : Finset (Fin n)) ⊆
      Finset.univ.filter (fun x => s.tasks x = TaskPhase.running) := by
    intro x hx
    rcases Finset.mem_insert.mp hx with hx | hx
    · subst hx
      simp [hi]
    · rw [Finset.mem_singleton] at hx
      subst hx
      simp [hj]
  have h2 : 2 ≤ runningCount s := by
    have := Finset.card_le_card hsub
    rwa [Finset.card_pair hij] at this
  omega

/-- The state one `acquire` step after `initGate 2`: job 0 holds the
gate and runs its pipeline body. -/
def gateAfterFirstAcquire : GateState 2 :=
  ⟨0, Function.update (initGate 2).tasks 0 TaskPhase.running⟩

/-- Witness for C9: with two scheduled jobs, in the reachable state
where the first holds the gate, the two jobs are not both running. -/
theorem C9_single_flight_witness :
    ((0 : Fin 2) ≠ 1)
    ∧ ¬ (gateAfterFirstAcquire.tasks 0 = TaskPhase.running
        ∧ gateAfterFirstAcquire.tasks 1 = TaskPhase.running) :=
  ⟨by decide,
   C9_single_flight 2 gateAfterFirstAcquire
     (Relation.ReflTransGen.single
       (GateStep.acquire (0 : Fin 2) (initGate 2) (by decide) rfl))
     0 1 (by decide)⟩

end RAG
